import Mathlib

/-!
Verification development for the `aiflow` crate: a shallow embedding of its
message model, usage accounting, transcript encoders, extractor pipeline and
the two streaming engines (`responses_stream` and `stream`), together with
theorems settling the specification claims.

Machine integers of the source (`u32`/`u64` token counts) are modelled as `ℕ`;
`BigDecimal` values are modelled as `ℚ` (every `BigDecimal` operation the
source performs here — exact conversion from integers and from `f64`,
addition, multiplication, and division by `10^6`, which terminates well within
the crate's 100-digit default precision — is exact, so `ℚ` is faithful).
-/

namespace Aiflow

/-- Embedding of `serde_json::Value` (numbers restricted to integers, which is
all the claims exercise). `Value::default()` is `Null`. -/
inductive Json where
  | null
  | bool (b : Bool)
  | num (n : ℤ)
  | str (s : String)
  | arr (elems : List Json)
  | obj (fields : List (String × Json))

instance : Inhabited Json := ⟨Json.null⟩

/-- Escape of one character inside a JSON string literal. -/
def jsonEscapeChar (c : Char) : String :=
  if c = '\\' then ("\\\\")
  else if c = '\"' then ("\\\"")
  else if c = '\n' then ("\\n")
  else c.toString

/-- Render a string as a JSON string literal. -/
def jsonRenderString (s : String) : String :=
  "\"" ++ String.join (s.toList.map jsonEscapeChar) ++ "\""

mutual

/-- Embedding of `serde_json::Value::to_string` (compact serialization). -/
def Json.toString : Json → String
  | .null => "null"
  | .bool b => if b then ("true") else ("false")
  | .num n => ToString.toString n
  | .str s => jsonRenderString s
  | .arr elems => "[" ++ Json.arrToString elems ++ "]"
  | .obj fields => "\x7b" ++ Json.objToString fields ++ "\x7d"

/-- Comma-separated serialization of a JSON array body. -/
def Json.arrToString : List Json → String
  | [] => ""
  | [x] => Json.toString x
  | x :: rest => Json.toString x ++ "," ++ Json.arrToString rest

/-- Comma-separated serialization of a JSON object body. -/
def Json.objToString : List (String × Json) → String
  | [] => ""
  | [(k, v)] => jsonRenderString k ++ ":" ++ Json.toString v
  | (k, v) :: rest =>
      jsonRenderString k ++ ":" ++ Json.toString v ++ "," ++ Json.objToString rest

end

/-- Embeds `message::Role` (`#[non_exhaustive]`, three variants in the source). -/
inductive Role where
  | developer
  | user
  | assistant
deriving DecidableEq

/-- Embeds `message::ToolCall`: `{id, name, args, result}`. -/
structure ToolCall where
  id : String
  name : String
  args : Json
  result : Option Json

/-- Embeds `message::TextPart`. -/
structure TextPart where
  text : String
deriving DecidableEq

/-- Embeds `message::ToolPart`. -/
structure ToolPart where
  tool : ToolCall

/-- Embeds `message::ErrorPart` (the wrapped `anyhow::Error` is modelled by its
display string, which is all the source ever uses of it). -/
structure ErrorPart where
  error : String
deriving DecidableEq

/-- Embeds `message::Part`. -/
inductive Part where
  | text (t : TextPart)
  | tool (t : ToolPart)
  | error (e : ErrorPart)

/-- Embeds `message::Message`. -/
structure Message where
  id : String
  role : Role
  parts : List Part

/-- Embeds `Message::tool_calls`: the tool calls among the message's parts, in order
(the source returns an iterator of mutable references; we return the values). -/
def Message.tool_calls (m : Message) : List ToolCall :=
  m.parts.filterMap fun p =>
    match p with
    | .tool toolPart => some toolPart.tool
    | _ => none

/-- Embeds `Usage`: token counts carried as `BigDecimal`, modelled as `ℚ`. -/
structure Usage where
  cached_input_tokens : ℚ
  input_tokens : ℚ
  output_tokens : ℚ
deriving DecidableEq

/-- Embeds `Session`: cursor and accumulated cost. -/
structure Session where
  cursor : Option String
  cost : ℚ
deriving DecidableEq

/-- Embeds `Model`: the supported model identifiers. -/
inductive Model where
  | gpt4_1
  | gpt4_1Mini
  | gpt4_1Nano
  | o3
  | o4Mini
deriving DecidableEq

/-- Exact rational value of an `f64`, given by its integer ratio.
`BigDecimal::from_f64` converts the *binary* value of the double exactly, so
e.g. `from_f64(0.4)` is `3602879701896397 / 2^53`, not `2/5`. -/
def f64Exact (num : ℤ) (den : ℕ) : ℚ :=
  (num : ℚ) / (den : ℚ)

/-- Embeds `Model::cost_per_input_token`: `BigDecimal::from_f64(rate) / from_f64(1e6)`.
Each rate literal is replaced by the exact rational value of its `f64`. -/
def Model.cost_per_input_token : Model → ℚ
  | .gpt4_1 => f64Exact 2 1 / f64Exact 1000000 1
  | .gpt4_1Mini => f64Exact 3602879701896397 9007199254740992 / f64Exact 1000000 1
  | .gpt4_1Nano => f64Exact 3602879701896397 36028797018963968 / f64Exact 1000000 1
  | .o3 => f64Exact 10 1 / f64Exact 1000000 1
  | .o4Mini => f64Exact 2476979795053773 2251799813685248 / f64Exact 1000000 1

/-- Embeds `Model::cost_per_cached_input_token`. -/
def Model.cost_per_cached_input_token : Model → ℚ
  | .gpt4_1 => f64Exact 1 2 / f64Exact 1000000 1
  | .gpt4_1Mini => f64Exact 3602879701896397 36028797018963968 / f64Exact 1000000 1
  | .gpt4_1Nano => f64Exact 3602879701896397 144115188075855872 / f64Exact 1000000 1
  | .o3 => f64Exact 5 2 / f64Exact 1000000 1
  | .o4Mini => f64Exact 2476979795053773 9007199254740992 / f64Exact 1000000 1

/-- Embeds `Model::cost_per_output_token`. -/
def Model.cost_per_output_token : Model → ℚ
  | .gpt4_1 => f64Exact 8 1 / f64Exact 1000000 1
  | .gpt4_1Mini => f64Exact 3602879701896397 2251799813685248 / f64Exact 1000000 1
  | .gpt4_1Nano => f64Exact 3602879701896397 9007199254740992 / f64Exact 1000000 1
  | .o3 => f64Exact 40 1 / f64Exact 1000000 1
  | .o4Mini => f64Exact 2476979795053773 562949953421312 / f64Exact 1000000 1

/-- Embeds `Model::cost`. -/
def Model.cost (m : Model) (usage : Usage) : ℚ :=
  m.cost_per_input_token * usage.input_tokens
    + m.cost_per_cached_input_token * usage.cached_input_tokens
    + m.cost_per_output_token * usage.output_tokens

/-- The `Usage` record built by `responses_stream` in its `ResponseCompleted`
arm: `cached_input_tokens = cached_tokens`, `input_tokens = input_tokens
.saturating_sub(cached_tokens)`, `output_tokens = output_tokens`.
Saturating subtraction on unsigned integers is `ℕ` subtraction. -/
def responsesUsageOf (input_tokens cached_tokens output_tokens : ℕ) : Usage :=
  { cached_input_tokens := (cached_tokens : ℚ)
    input_tokens := ((input_tokens - cached_tokens : ℕ) : ℚ)
    output_tokens := (output_tokens : ℚ) }

/-- The `Usage` record built by `stream` at the final chunk:
`cached_input_tokens = prompt_tokens_details.and_then(cached_tokens)
.unwrap_or_default()`, `input_tokens = prompt_tokens.saturating_sub(cached)`. -/
def chatUsageOf (prompt_tokens : ℕ) (cached_tokens : Option ℕ)
    (completion_tokens : ℕ) : Usage :=
  let cached_input_tokens := cached_tokens.getD 0
  { cached_input_tokens := (cached_input_tokens : ℚ)
    input_tokens := ((prompt_tokens - cached_input_tokens : ℕ) : ℚ)
    output_tokens := (completion_tokens : ℚ) }

/-- Outcome of a tool executor's future once joined: `Ok(value)` or an error
whose display string is `msg` (the engine turns the latter into
`"Error: <msg>"`). Executors are modelled as deterministic functions. -/
inductive ExecOutcome where
  | ok (value : Json)
  | err (msg : String)

/-- Embeds `tool::Tool`: name, description, streamability flag and optional executor.
The executor field models `execute: Option<CallExecutor>` as a function from
the `(id, args)` snapshot to the joined outcome of its future. -/
structure Tool where
  name : String
  description : String
  stream : Bool
  executor : Option (String → Json → ExecOutcome)

/-- Embeds `Tool::is_streamable`. -/
def Tool.is_streamable (t : Tool) : Bool :=
  t.stream

/-- Embeds `Tool::execute`: `None` when no executor is registered (client tool). -/
def Tool.execute (t : Tool) (id : String) (args : Json) : Option ExecOutcome :=
  t.executor.map fun f => f id args

/-- Embeds `tool::Set`: a map from tool name to tool, modelled as an association
list with unique keys; only lookup is used by the engines. -/
abbrev ToolSet := List (String × Tool)

/-- Map lookup on the tool set (`FxHashMap::get`). -/
def ToolSet.get (tools : ToolSet) (name : String) : Option Tool :=
  (tools.find? fun entry => entry.1 == name).map fun entry => entry.2

/-- Embeds `ChatCompletionMessageToolCall` (its `type` is always `function`). -/
structure ChatToolCall where
  id : String
  name : String
  arguments : String

/-- Embeds `ChatCompletionRequestToolMessage`: a tool-role message. -/
structure ChatToolMessage where
  tool_call_id : String
  content : String

/-- Embeds `ChatCompletionRequestMessage`, restricted to the variants the encoder
produces. The assistant variant carries optional content and an optional
`tool_calls` list, as built by `ChatCompletionRequestAssistantMessageArgs`. -/
inductive ChatReqMessage where
  | developer (content : String)
  | user (content : String)
  | assistant (content : Option String) (tool_calls : Option (List ChatToolCall))
  | tool (m : ChatToolMessage)

/-- Embeds `From<message::ToolCall>` for the pair (tool call, optional tool-result
message): the call id and name are copied, the arguments and the result are
string-encoded with `to_string`. -/
def toolCallToChat (t : ToolCall) : ChatToolCall × Option ChatToolMessage :=
  (⟨t.id, t.name, Json.toString t.args⟩,
   t.result.map fun result => ⟨t.id, Json.toString result⟩)

/-- Flushing the buffered tool-role messages onto the output list
(`for tool_message in core::mem::take(&mut tool_messages) \x7b push \x7d`). -/
def chatFlush (acc : List ChatReqMessage × List ChatToolMessage) :
    List ChatReqMessage × List ChatToolMessage :=
  (acc.1 ++ acc.2.map ChatReqMessage.tool, [])

/-- One iteration of the encoder loop of
`TryFrom<Message> for Vec<ChatCompletionRequestMessage>`, on one part. -/
def chatEncodeStep (role : Role)
    (acc : List ChatReqMessage × List ChatToolMessage) (p : Part) :
    Except String (List ChatReqMessage × List ChatToolMessage) :=
  match p with
  | .text textPart =>
      let acc := chatFlush acc
      let pushed :=
        match role with
        | .developer => ChatReqMessage.developer textPart.text
        | .user => ChatReqMessage.user textPart.text
        | .assistant => ChatReqMessage.assistant (some textPart.text) none
      .ok (acc.1 ++ [pushed], acc.2)
  | .tool toolPart =>
      if role ≠ .assistant then
        .error ("Tool part must be an assistant message")
      else
        let (tool_call, tool_message) := toolCallToChat toolPart.tool
        let messages :=
          match acc.1.getLast? with
          | some (.assistant content tool_calls) =>
              acc.1.dropLast ++
                [ChatReqMessage.assistant content
                  (some (tool_calls.getD [] ++ [tool_call]))]
          | _ => acc.1 ++ [ChatReqMessage.assistant none (some [tool_call])]
        .ok (messages, acc.2 ++ tool_message.toList)
  | .error errorPart =>
      if role ≠ .developer then
        .error ("Error part must be a developer message")
      else
        let acc := chatFlush acc
        .ok (acc.1 ++ [ChatReqMessage.developer errorPart.error], acc.2)

/-- Embeds `TryFrom<Message> for Vec<ChatCompletionRequestMessage>`: fold the parts
in order, then flush any still-buffered tool messages. -/
def chatEncodeMessage (val : Message) :
    Except String (List ChatReqMessage) := do
  let acc ← val.parts.foldlM (chatEncodeStep val.role) ([], [])
  .ok (chatFlush acc).1

/-- Embeds `InputListItem`, restricted to the variants the Responses-dialect encoder
produces (`InputMessage` with text content, `FunctionCall`,
`FunctionCallOutput`). -/
inductive InputListItem where
  | message (role : Role) (content : String)
  | functionCall (call_id : String) (name : String) (arguments : String)
  | functionCallOutput (call_id : String) (output : String)

/-- Embeds `From<message::ToolCall> for Vec<InputListItem>`: one function-call item,
then one function-call-output item exactly when a result is present. -/
def toolCallToItems (t : ToolCall) : List InputListItem :=
  [InputListItem.functionCall t.id t.name (Json.toString t.args)] ++
    match t.result with
    | some result => [InputListItem.functionCallOutput t.id (Json.toString result)]
    | none => []

/-- One iteration of the encoder loop of
`TryFrom<Message> for Vec<InputListItem>`, on one part. -/
def responsesEncodeStep (role : Role) (items : List InputListItem) (p : Part) :
    Except String (List InputListItem) :=
  match p with
  | .text textPart =>
      .ok (items ++ [InputListItem.message role textPart.text])
  | .tool toolPart =>
      if role ≠ .assistant then
        .error ("Tool part must be an assistant message")
      else
        .ok (items ++ toolCallToItems toolPart.tool)
  | .error errorPart =>
      if role ≠ .developer then
        .error ("Error part must be a developer message")
      else
        .ok (items ++ [InputListItem.message .developer errorPart.error])

/-- Embeds `TryFrom<Message> for Vec<InputListItem>`: lower each part in order at the
top level of the input list. -/
def responsesEncodeMessage (val : Message) :
    Except String (List InputListItem) :=
  val.parts.foldlM (responsesEncodeStep val.role) []

/-- A type-erased `Arc<dyn Any + Sync + Send>` value, modelled by its runtime
type tag; `downcast::<T>()` succeeds exactly when the tag is `T`. -/
structure AnyValue where
  ty : String
deriving DecidableEq

/-- Embeds `tool::Call`: the mutable state threaded through the extractor pipeline
(`\x7bcontext, id, args\x7d`, each taken at most once). -/
structure CallState where
  context : Option AnyValue
  id : Option String
  args : Option Json

/-- Result of running one `TryFrom<&mut Call>` extractor: a value together
with the mutated state, an `Err` return, or a panic (`expect`). -/
inductive ExtractResult (α : Type) where
  | ok (value : α) (state : CallState)
  | failed (msg : String)
  | panicked (msg : String)

/-- Whether an extraction returned `Err` (as opposed to succeeding or
panicking). -/
def ExtractResult.isFailed {α : Type} : ExtractResult α → Bool
  | .failed _ => true
  | _ => false

/-- Whether an extraction returned a value. -/
def ExtractResult.isValue {α : Type} : ExtractResult α → Bool
  | .ok _ _ => true
  | _ => false

/-- Embeds `TryFrom<&mut Call> for Id`: `state.id.take().expect("id to exist")`. -/
def idTryFrom (state : CallState) : ExtractResult String :=
  match state.id with
  | none => .panicked ("id to exist")
  | some theId => .ok theId { state with id := none }

/-- Embeds `TryFrom<&mut Call> for Args<T>`:
`serde_json::from_value(state.args.take().expect("args to exist"))`, with the
deserializer for `T` passed as a parameter. -/
def argsTryFrom {τ : Type} (deserialize : Json → Except String τ)
    (state : CallState) : ExtractResult τ :=
  match state.args with
  | none => .panicked ("args to exist")
  | some a =>
      match deserialize a with
      | .ok v => .ok v { state with args := none }
      | .error e => .failed e

/-- Embeds `TryFrom<&mut Call> for Context<T>`:
`state.context.take().expect("context to exist").downcast().expect("to be a T")`.
`τ` is the runtime tag of the target type `T`. -/
def contextTryFrom (τ : String) (state : CallState) : ExtractResult AnyValue :=
  match state.context with
  | none => .panicked ("context to exist")
  | some dynValue =>
      if dynValue.ty = τ then .ok dynValue { state with context := none }
      else .panicked ("to be a T")

/-- Embeds `config::ToolChoice`. -/
inductive ToolChoice where
  | auto
  | required
  | none
deriving DecidableEq

/-- Embeds `GenerateConfig` with its defaults (`gpt-4.1`, `Auto`). -/
structure GenerateConfig where
  model : Model
  tool_choice : ToolChoice

/-- Embeds `GenerateConfig::default()`. -/
def GenerateConfig.default : GenerateConfig :=
  ⟨.gpt4_1, .auto⟩

/-- An item of the lazy observation sequence both engines return: `Ok` with a
snapshot of the shared assistant message at the moment of the yield, or an
error item. -/
inductive Obs where
  | ok (snapshot : Message)
  | error (e : String)

/-- The usage payload of a `ResponseCompleted` event (the fields the engine
reads: `input_tokens`, `input_tokens_details.cached_tokens`,
`output_tokens`). -/
structure RUsage where
  input_tokens : ℕ
  cached_tokens : ℕ
  output_tokens : ℕ

/-- Events of the Responses dialect, restricted to the fields the engine
reads; every unhandled event of the vendor enum is `otherEvent`. -/
inductive REvent where
  | responseCompleted (previous_response_id : Option String) (usage : Option RUsage)
  | outputItemAddedFunctionCall (output_index : ℕ) (call_id name arguments : String)
  | contentPartAddedText (output_index content_index : ℕ) (text : String)
  | contentPartAddedRefusal (output_index content_index : ℕ) (refusal : String)
  | outputTextDelta (output_index content_index : ℕ) (delta : String)
  | refusalDelta (output_index content_index : ℕ) (delta : String)
  | functionCallArgumentsDelta (output_index : ℕ) (delta : String)
  | functionCallArgumentsDone (output_index : ℕ)
  | otherEvent

/-- State of one turn of `responses_stream`: the shared assistant message, the
`deltas` map keyed by `(output_index, content_index)`, the spawned tool
executions tagged with their `part_index`, the session, and the observations
yielded so far. -/
structure RTurnState where
  assistant_message : Message
  deltas : List ((ℕ × ℕ) × (String × ℕ))
  tool_executions : List (ℕ × ExecOutcome)
  session : Session
  yields : List Obs

/-- Embeds `BTreeMap::get` on the responses `deltas` map. -/
def dmLookup (m : List ((ℕ × ℕ) × (String × ℕ))) (k : ℕ × ℕ) :
    Option (String × ℕ) :=
  (m.find? fun e => e.1 == k).map fun e => e.2

/-- Embeds `BTreeMap::insert` (overwrites) on the responses `deltas` map; iteration
order is never used for this map, so position is immaterial. -/
def dmInsert (m : List ((ℕ × ℕ) × (String × ℕ))) (k : ℕ × ℕ)
    (v : String × ℕ) : List ((ℕ × ℕ) × (String × ℕ)) :=
  (m.filter fun e => e.1 != k) ++ [(k, v)]

/-- In-place mutation through `get_mut` on the responses `deltas` map. -/
def dmUpdate (m : List ((ℕ × ℕ) × (String × ℕ))) (k : ℕ × ℕ)
    (v : String × ℕ) : List ((ℕ × ℕ) × (String × ℕ)) :=
  m.map fun e => if e.1 == k then (e.1, v) else e

/-- Embeds `Option::expect`: a panic (modelled as `Except.error`) when absent. -/
def expectSome {α : Type} (o : Option α) (msg : String) : Except String α :=
  match o with
  | some a => .ok a
  | none => .error msg

/-- The `let_assert!(Part::Text(..))` pattern assertions of the engines. -/
def asTextPart : Part → Except String TextPart
  | .text textPart => .ok textPart
  | _ => .error ("expected a text part")

/-- The `let_assert!(Part::Tool(..))` pattern assertions of the engines. -/
def asToolCall : Part → Except String ToolCall
  | .tool toolPart => .ok toolPart.tool
  | _ => .error ("expected a tool part")

/-- One iteration of the event loop of `responses_stream` (the `match event`
of the source): mutate the state and append the yield the arm performs, if
any (arms ending in `continue` yield nothing). `pij` is the external
`parse_incomplete_json` collaborator. -/
def processREvent (mdl : Model) (tools : ToolSet) (pij : String → Option Json)
    (st : RTurnState) (ev : REvent) : Except String RTurnState :=
  match ev with
  | .responseCompleted previous_response_id usage =>
      let session :=
        match previous_response_id with
        | some prev => { st.session with cursor := some prev }
        | Option.none => st.session
      let session :=
        match usage with
        | some u =>
            { session with
              cost := session.cost +
                mdl.cost (responsesUsageOf u.input_tokens u.cached_tokens
                  u.output_tokens) }
        | Option.none => session
      .ok { st with
              session := session
              yields := st.yields ++ [Obs.ok st.assistant_message] }
  | .outputItemAddedFunctionCall output_index call_id name arguments =>
      let part_index := st.assistant_message.parts.length
      let deltas := dmInsert st.deltas (output_index, 0) (arguments, part_index)
      let m :=
        { st.assistant_message with
          parts := st.assistant_message.parts ++
            [Part.tool ⟨⟨call_id, name, Json.null, Option.none⟩⟩] }
      .ok { st with
              assistant_message := m
              deltas := deltas
              yields := st.yields ++ [Obs.ok m] }
  | .contentPartAddedText output_index content_index text
  | .contentPartAddedRefusal output_index content_index text =>
      let part_index := st.assistant_message.parts.length
      let deltas :=
        dmInsert st.deltas (output_index, content_index) (text, part_index)
      let m :=
        { st.assistant_message with
          parts := st.assistant_message.parts ++ [Part.text ⟨text⟩] }
      .ok { st with
              assistant_message := m
              deltas := deltas
              yields := st.yields ++ [Obs.ok m] }
  | .outputTextDelta output_index content_index delta
  | .refusalDelta output_index content_index delta => do
      let (text, part_index) ←
        expectSome (dmLookup st.deltas (output_index, content_index))
          ("openai to correctly order events")
      let text := text ++ delta
      let deltas :=
        dmUpdate st.deltas (output_index, content_index) (text, part_index)
      let part ← expectSome (st.assistant_message.parts.get? part_index)
        ("part to exist")
      let _ ← asTextPart part
      let m :=
        { st.assistant_message with
          parts := st.assistant_message.parts.set part_index (Part.text ⟨text⟩) }
      .ok { st with
              assistant_message := m
              deltas := deltas
              yields := st.yields ++ [Obs.ok m] }
  | .functionCallArgumentsDelta output_index delta => do
      let (args, part_index) ←
        expectSome (dmLookup st.deltas (output_index, 0))
          ("openai to correctly order events")
      let args := args ++ delta
      let deltas := dmUpdate st.deltas (output_index, 0) (args, part_index)
      let part ← expectSome (st.assistant_message.parts.get? part_index)
        ("part to exist")
      let tool ← asToolCall part
      let tool := { tool with args := (pij args).getD Json.null }
      let m :=
        { st.assistant_message with
          parts := st.assistant_message.parts.set part_index (Part.tool ⟨tool⟩) }
      let st := { st with assistant_message := m, deltas := deltas }
      match ToolSet.get tools tool.name with
      | Option.none => .ok st
      | some tool_executor =>
          if !tool_executor.is_streamable then .ok st
          else
            match tool_executor.execute tool.id tool.args with
            | some outcome =>
                .ok { st with
                        tool_executions :=
                          st.tool_executions ++ [(part_index, outcome)] }
            | Option.none => .ok st
  | .functionCallArgumentsDone output_index => do
      let (_, part_index) ←
        expectSome (dmLookup st.deltas (output_index, 0))
          ("openai to correctly order events")
      let part ← expectSome (st.assistant_message.parts.get? part_index)
        ("part to exist")
      let tool ← asToolCall part
      match ToolSet.get tools tool.name with
      | Option.none =>
          let tool :=
            { tool with result := some (Json.str ("No such tool: " ++ tool.name)) }
          .ok { st with
                  assistant_message :=
                    { st.assistant_message with
                      parts := st.assistant_message.parts.set part_index
                        (Part.tool ⟨tool⟩) } }
      | some tool_executor =>
          if tool_executor.is_streamable then .ok st
          else
            match tool_executor.execute tool.id tool.args with
            | some outcome =>
                .ok { st with
                        tool_executions :=
                          st.tool_executions ++ [(part_index, outcome)] }
            | Option.none => .ok st
  | .otherEvent => .ok st

/-- The `while let Some(result) = stream.next()` loop of `responses_stream`.
A stream item that is an error makes the engine yield an error observation
and abort the generator; the returned flag records that early return. -/
def runREvents (mdl : Model) (tools : ToolSet) (pij : String → Option Json)
    (st : RTurnState) : List (Except String REvent) →
    Except String (RTurnState × Bool)
  | [] => .ok (st, false)
  | .error e :: _ =>
      .ok ({ st with
               yields := st.yields ++
                 [Obs.error ("Failed to create stream: " ++ e)] }, true)
  | .ok ev :: rest => do
      let st ← processREvent mdl tools pij st ev
      runREvents mdl tools pij st rest

/-- The value written into a tool part when its execution future completes:
`Ok(result)` verbatim, `Err(error)` as the string `"Error: <error>"`. -/
def joinResultValue : ExecOutcome → Json
  | .ok value => value
  | .err msg => Json.str ("Error: " ++ msg)

/-- Writing one joined execution result into the tool part it was tagged
with (the body of the `while let Some((part_index, result))` join loop). -/
def joinToolResult (m : Message) (entry : ℕ × ExecOutcome) :
    Except String Message := do
  let part ← expectSome (m.parts.get? entry.1) ("part to exist")
  let tool ← asToolCall part
  let tool := { tool with result := some (joinResultValue entry.2) }
  .ok { m with parts := m.parts.set entry.1 (Part.tool ⟨tool⟩) }

/-- Joining every spawned execution (modelled in spawn order). -/
def joinToolResults (m : Message) (executions : List (ℕ × ExecOutcome)) :
    Except String Message :=
  executions.foldlM joinToolResult m

/-- How a turn ended: the stream errored (generator returned after an error
observation), the engine terminated, or it re-enters the outer loop. -/
inductive TurnEnd where
  | errored
  | halted
  | looped
deriving DecidableEq

/-- Embeds `message.tool_calls().filter(|c| c.result.is_none()).count() > 0`. -/
def hasAbsentToolResult (m : Message) : Bool :=
  (m.tool_calls.filter fun tc => tc.result.isNone).length > 0

/-- One turn of `responses_stream`: run the event loop, then the post-stream
logic of the source — return when no executions were spawned; otherwise join
them all, yield, and return exactly when some tool call still has an absent
result. -/
def runRTurn (mdl : Model) (tools : ToolSet) (pij : String → Option Json)
    (st : RTurnState) (items : List (Except String REvent)) :
    Except String (RTurnState × TurnEnd) :=
  match runREvents mdl tools pij st items with
  | .error e => .error e
  | .ok (st, errored) =>
      if errored then .ok (st, .errored)
      else if st.tool_executions.isEmpty then .ok (st, .halted)
      else
        match joinToolResults st.assistant_message st.tool_executions with
        | .error e => .error e
        | .ok m =>
            if hasAbsentToolResult m then
              .ok ({ st with assistant_message := m
                             yields := st.yields ++ [Obs.ok m] }, .halted)
            else
              .ok ({ st with assistant_message := m
                             yields := st.yields ++ [Obs.ok m] }, .looped)

/-- The outer loop of `responses_stream`, driven by one scripted event stream
per turn (each turn starts with a fresh `deltas` map and a fresh `JoinSet`).
An exhausted script list ends the model's observation sequence; a panic
(`Except.error` inside the turn) aborts the generator. -/
def rEngineLoop (mdl : Model) (tools : ToolSet) (pij : String → Option Json)
    (m : Message) (session : Session) :
    List (List (Except String REvent)) → List Obs
  | [] => []
  | script :: rest =>
      let st : RTurnState :=
        { assistant_message := m, deltas := [], tool_executions := []
          session := session, yields := [] }
      match runRTurn mdl tools pij st script with
      | .error _ => []
      | .ok (st, theEnd) =>
          st.yields ++
            (if theEnd = .looped then
              rEngineLoop mdl tools pij st.assistant_message st.session rest
            else [])

/-- Embeds `responses_stream`: encode the transcript (a panic here aborts before any
observation), then yield the freshly created empty assistant message before
consuming any backend event, and run the outer loop. -/
def responses_stream (messages : List Message) (tools : ToolSet)
    (config : Option GenerateConfig) (pij : String → Option Json)
    (fresh_id : String) (session : Session)
    (scripts : List (List (Except String REvent))) :
    Except String (List Obs) :=
  let config := config.getD GenerateConfig.default
  match messages.mapM responsesEncodeMessage with
  | .error e => .error e
  | .ok _thread =>
      let assistant_message : Message :=
        { id := fresh_id, role := .assistant, parts := [] }
      .ok (Obs.ok assistant_message ::
        rEngineLoop config.model tools pij assistant_message session scripts)

/-- One element of a chunk's `delta.tool_calls`: index, optional call id and
optional function fragment. -/
structure FunctionDelta where
  name : Option String
  arguments : Option String

/-- A tool-call delta of the Chat dialect. -/
structure ToolCallDelta where
  index : ℕ
  id : Option String
  function : Option FunctionDelta

/-- The delta of a chat chunk's single choice. -/
structure ChatChoiceDelta where
  content : Option String
  tool_calls : Option (List ToolCallDelta)

/-- The usage payload of the final chat chunk (the fields the engine reads:
`prompt_tokens`, `completion_tokens`,
`prompt_tokens_details.and_then(cached_tokens)`). -/
structure ChatUsage where
  prompt_tokens : ℕ
  completion_tokens : ℕ
  cached_tokens : Option ℕ

/-- A chat completion chunk: at most one choice (`choices.into_iter().next()`)
and optional usage; `is_last_chunk` is `choices.is_empty()`. -/
structure ChatChunk where
  choice : Option ChatChoiceDelta
  usage : Option ChatUsage

/-- State of one turn of `stream`: the shared assistant message, the
`tool_deltas` map keyed by `tool_call_index` (a `BTreeMap`, kept in ascending
key order because the post-stream sweep iterates it), the spawned executions,
the session, and the observations yielded so far. -/
structure CTurnState where
  assistant_message : Message
  tool_deltas : List (ℕ × (String × ℕ))
  tool_executions : List (ℕ × ExecOutcome)
  session : Session
  yields : List Obs

/-- Embeds `BTreeMap::entry` lookup on the chat `tool_deltas` map. -/
def cmLookup (m : List (ℕ × (String × ℕ))) (k : ℕ) : Option (String × ℕ) :=
  (m.find? fun e => e.1 == k).map fun e => e.2

/-- Insertion through a vacant `BTreeMap` entry, keeping keys ascending (the
order in which the post-stream sweep visits them). -/
def cmInsert (m : List (ℕ × (String × ℕ))) (k : ℕ) (v : String × ℕ) :
    List (ℕ × (String × ℕ)) :=
  match m with
  | [] => [(k, v)]
  | (k', v') :: rest =>
      if k < k' then (k, v) :: (k', v') :: rest
      else if k = k' then (k, v) :: rest
      else (k', v') :: cmInsert rest k v

/-- In-place mutation through an occupied `BTreeMap` entry. -/
def cmUpdate (m : List (ℕ × (String × ℕ))) (k : ℕ) (v : String × ℕ) :
    List (ℕ × (String × ℕ)) :=
  m.map fun e => if e.1 == k then (e.1, v) else e

/-- Processing of one `tool_call_delta` by `stream` (the `match
tool_deltas.entry(..)` of the source): a vacant index appends a fresh tool
part (panicking if the first delta has no function) and registers the map
entry; an occupied index appends the argument fragment, reparses `args`, and
spawns a streamable executor on the refreshed `(id, args)` snapshot. -/
def processToolCallDelta (tools : ToolSet) (pij : String → Option Json)
    (st : CTurnState) (d : ToolCallDelta) : Except String CTurnState :=
  match cmLookup st.tool_deltas d.index with
  | Option.none => do
      let part_index := st.assistant_message.parts.length
      let function ← expectSome d.function ("first part always has a function")
      let m :=
        { st.assistant_message with
          parts := st.assistant_message.parts ++
            [Part.tool ⟨⟨d.id.getD (""), function.name.getD (""), Json.null,
              Option.none⟩⟩] }
      .ok { st with
              assistant_message := m
              tool_deltas := cmInsert st.tool_deltas d.index ("", part_index) }
  | some (args, part_index) => do
      let part ← expectSome (st.assistant_message.parts.get? part_index)
        ("part to exist")
      let tool ← asToolCall part
      let (args, tool) :=
        match d.function with
        | some function =>
            let args := args ++ function.arguments.getD ("")
            (args, { tool with args := (pij args).getD Json.null })
        | Option.none => (args, tool)
      let tool_deltas := cmUpdate st.tool_deltas d.index (args, part_index)
      let m :=
        { st.assistant_message with
          parts := st.assistant_message.parts.set part_index (Part.tool ⟨tool⟩) }
      let st := { st with assistant_message := m, tool_deltas := tool_deltas }
      match ToolSet.get tools tool.name with
      | Option.none => .ok st
      | some tool_executor =>
          if !tool_executor.is_streamable then .ok st
          else
            match tool_executor.execute tool.id tool.args with
            | some outcome =>
                .ok { st with
                        tool_executions :=
                          st.tool_executions ++ [(part_index, outcome)] }
            | Option.none => .ok st

/-- Processing of one chat chunk by `stream`: accumulate text onto a trailing
text part (or open a new one), process the tool-call deltas, yield a snapshot
when the chunk carried a choice, and accumulate cost on the final
(empty-choices) chunk. -/
def processCChunk (mdl : Model) (tools : ToolSet) (pij : String → Option Json)
    (st : CTurnState) (chunk : ChatChunk) : Except String CTurnState := do
  let is_last_chunk := chunk.choice.isNone
  let st ←
    match chunk.choice with
    | Option.none => pure st
    | some chat_choice => do
        let st :=
          match chat_choice.content with
          | some content =>
              match st.assistant_message.parts.getLast? with
              | some (.text textPart) =>
                  { st with
                    assistant_message :=
                      { st.assistant_message with
                        parts := st.assistant_message.parts.dropLast ++
                          [Part.text ⟨textPart.text ++ content⟩] } }
              | _ =>
                  { st with
                    assistant_message :=
                      { st.assistant_message with
                        parts := st.assistant_message.parts ++
                          [Part.text ⟨content⟩] } }
          | Option.none => st
        let st ←
          match chat_choice.tool_calls with
          | some tool_call_deltas =>
              tool_call_deltas.foldlM (processToolCallDelta tools pij) st
          | Option.none => pure st
        pure { st with yields := st.yields ++ [Obs.ok st.assistant_message] }
  if is_last_chunk then
    match chunk.usage with
    | some completion_usage =>
        .ok { st with
                session :=
                  { st.session with
                    cost := st.session.cost +
                      mdl.cost (chatUsageOf completion_usage.prompt_tokens
                        completion_usage.cached_tokens
                        completion_usage.completion_tokens) } }
    | Option.none => .ok st
  else .ok st

/-- The `while let Some(result) = stream.next()` loop of `stream`; an error
item yields an error observation and aborts the generator. -/
def runCChunks (mdl : Model) (tools : ToolSet) (pij : String → Option Json)
    (st : CTurnState) : List (Except String ChatChunk) →
    Except String (CTurnState × Bool)
  | [] => .ok (st, false)
  | .error e :: _ =>
      .ok ({ st with
               yields := st.yields ++
                 [Obs.error ("Failed to create stream: " ++ e)] }, true)
  | .ok chunk :: rest => do
      let st ← processCChunk mdl tools pij st chunk
      runCChunks mdl tools pij st rest

/-- The body of the post-stream sweep of `stream`, for one `tool_deltas`
entry: an unregistered tool name records `"No such tool: <name>"`; a
registered non-streamable tool with an executor is scheduled now. -/
def chatSweepEntry (tools : ToolSet) (st : CTurnState)
    (entry : ℕ × (String × ℕ)) : Except String CTurnState := do
  let part_index := entry.2.2
  let part ← expectSome (st.assistant_message.parts.get? part_index)
    ("part to exist")
  let tool ← asToolCall part
  match ToolSet.get tools tool.name with
  | Option.none =>
      let tool :=
        { tool with result := some (Json.str ("No such tool: " ++ tool.name)) }
      .ok { st with
              assistant_message :=
                { st.assistant_message with
                  parts := st.assistant_message.parts.set part_index
                    (Part.tool ⟨tool⟩) } }
  | some tool_executor =>
      if tool_executor.is_streamable then .ok st
      else
        match tool_executor.execute tool.id tool.args with
        | some outcome =>
            .ok { st with
                    tool_executions :=
                      st.tool_executions ++ [(part_index, outcome)] }
        | Option.none => .ok st

/-- The post-stream sweep of `stream`: `for (_, (_, part_index)) in
tool_deltas`, in ascending key order. -/
def chatSweep (tools : ToolSet) (st : CTurnState) : Except String CTurnState :=
  st.tool_deltas.foldlM (chatSweepEntry tools) st

/-- One turn of `stream`: run the chunk loop, sweep the `tool_deltas` map,
then the same post-stream decision as the Responses engine. -/
def runCTurn (mdl : Model) (tools : ToolSet) (pij : String → Option Json)
    (st : CTurnState) (items : List (Except String ChatChunk)) :
    Except String (CTurnState × TurnEnd) :=
  match runCChunks mdl tools pij st items with
  | .error e => .error e
  | .ok (st, errored) =>
      if errored then .ok (st, .errored)
      else
        match chatSweep tools st with
        | .error e => .error e
        | .ok st =>
            if st.tool_executions.isEmpty then .ok (st, .halted)
            else
              match joinToolResults st.assistant_message st.tool_executions with
              | .error e => .error e
              | .ok m =>
                  if hasAbsentToolResult m then
                    .ok ({ st with assistant_message := m
                                   yields := st.yields ++ [Obs.ok m] }, .halted)
                  else
                    .ok ({ st with assistant_message := m
                                   yields := st.yields ++ [Obs.ok m] }, .looped)

/-- The outer loop of `stream`, one scripted chunk stream per turn. -/
def cEngineLoop (mdl : Model) (tools : ToolSet) (pij : String → Option Json)
    (m : Message) (session : Session) :
    List (List (Except String ChatChunk)) → List Obs
  | [] => []
  | script :: rest =>
      let st : CTurnState :=
        { assistant_message := m, tool_deltas := [], tool_executions := []
          session := session, yields := [] }
      match runCTurn mdl tools pij st script with
      | .error _ => []
      | .ok (st, theEnd) =>
          st.yields ++
            (if theEnd = .looped then
              cEngineLoop mdl tools pij st.assistant_message st.session rest
            else [])

/-- Embeds `stream`: encode the transcript (a panic here aborts before any
observation), then yield the freshly created empty assistant message before
consuming any backend chunk, and run the outer loop. -/
def stream (messages : List Message) (tools : ToolSet)
    (config : Option GenerateConfig) (pij : String → Option Json)
    (fresh_id : String) (session : Session)
    (scripts : List (List (Except String ChatChunk))) :
    Except String (List Obs) :=
  let config := config.getD GenerateConfig.default
  match messages.mapM chatEncodeMessage with
  | .error e => .error e
  | .ok _thread =>
      let assistant_message : Message :=
        { id := fresh_id, role := .assistant, parts := [] }
      .ok (Obs.ok assistant_message ::
        cEngineLoop config.model tools pij assistant_message session scripts)

/-! Concrete fixtures used to evaluate the definitions at specific inputs. -/

/-- An empty tool registry. -/
def noTools : ToolSet := []

/-- A fragment-repair collaborator that never repairs. -/
def noRepair : String → Option Json := fun _ => Option.none

/-- A fresh session. -/
def session0 : Session := { cursor := Option.none, cost := 0 }

/-- A tool call whose name is not in `noTools`. -/
def nopeToolCall : ToolCall :=
  { id := "c1", name := "nope", args := Json.null, result := Option.none }

/-- A responses-dialect turn state holding one pending unknown-tool part. -/
def rStateNope : RTurnState :=
  { assistant_message :=
      { id := "m1", role := .assistant, parts := [Part.tool ⟨nopeToolCall⟩] }
    deltas := [((0, 0), ("", 0))]
    tool_executions := []
    session := session0
    yields := [] }

/-- A chat-dialect turn state holding one pending unknown-tool part. -/
def cStateNope : CTurnState :=
  { assistant_message :=
      { id := "m1", role := .assistant, parts := [Part.tool ⟨nopeToolCall⟩] }
    tool_deltas := [(0, ("", 0))]
    tool_executions := []
    session := session0
    yields := [] }

/-- An empty responses-dialect turn state. -/
def rState0 : RTurnState :=
  { assistant_message := { id := "m1", role := .assistant, parts := [] }
    deltas := []
    tool_executions := []
    session := session0
    yields := [] }

/-- An empty chat-dialect turn state. -/
def cState0 : CTurnState :=
  { assistant_message := { id := "m1", role := .assistant, parts := [] }
    tool_deltas := []
    tool_executions := []
    session := session0
    yields := [] }

/-- A tool call carrying a result. -/
def addToolCall : ToolCall :=
  { id := "c2", name := "add", args := Json.null, result := some (Json.num 3) }

/-- A call state with no registered context. -/
def callStateNoContext : CallState :=
  { context := Option.none, id := some ("c1"), args := some Json.null }

/-- A call state whose context was registered at type tag `"U"`. -/
def callStateOtherContext : CallState :=
  { context := some ⟨"U"⟩, id := some ("c1"), args := some Json.null }

/-! ## Theorems settling the claims -/

/-- C1: the claim states that `Model::cost` is exactly
`input·rate_in/10^6 + cached·rate_cached/10^6 + output·rate_out/10^6` with the
rates being the exact decimal table values (0.4, 0.1, 1.6 for gpt-4.1-mini),
carried in exact decimal arithmetic. The code seeds the rates with
`BigDecimal::from_f64`, which injects the binary rounding error of the `f64`
literal: at gpt-4.1-mini with one uncached input token and nothing else, the
cost is `3602879701896397/2^53/10^6`, not `0.4/10^6`. -/
theorem Model.cost_gpt4_1Mini_single_input_token_is_not_exact_rate :
    Model.cost .gpt4_1Mini ⟨0, 1, 0⟩ =
      (3602879701896397 : ℚ) / 9007199254740992000000 ∧
    Model.cost .gpt4_1Mini ⟨0, 1, 0⟩ ≠ (4 : ℚ) / 10000000 := by
  constructor <;>
    norm_num [Model.cost, Model.cost_per_input_token,
      Model.cost_per_cached_input_token, Model.cost_per_output_token, f64Exact]

/-- C3 counterexample: with a misreported usage (prompt 1, cached 2), both
engines' usage records have `cached_input_tokens + input_tokens = 2 ≠ 1`, so
the invariant does not hold "for all reported values ... including when
cached exceeds prompt". -/
theorem usage_sum_misreport_counterexample :
    ((responsesUsageOf 1 2 0).cached_input_tokens +
        (responsesUsageOf 1 2 0).input_tokens ≠ (1 : ℚ)) ∧
    ((chatUsageOf 1 (some 2) 0).cached_input_tokens +
        (chatUsageOf 1 (some 2) 0).input_tokens ≠ (1 : ℚ)) := by
  constructor <;> norm_num [responsesUsageOf, chatUsageOf]

/-- C3 (amended): whenever the reported cached count does not exceed the
reported prompt count, the raw `prompt_tokens` value equals
`cached_input_tokens + input_tokens` of the `Usage` record built by either
engine (when cached exceeds prompt, the sum equals the cached count instead). -/
theorem usage_sum_recovers_prompt_tokens (p c o : ℕ) (h : c ≤ p) :
    (responsesUsageOf p c o).cached_input_tokens +
        (responsesUsageOf p c o).input_tokens = (p : ℚ) ∧
    (chatUsageOf p (some c) o).cached_input_tokens +
        (chatUsageOf p (some c) o).input_tokens = (p : ℚ) := by
  have hc : ((p - c : ℕ) : ℚ) = (p : ℚ) - (c : ℚ) := by
    push_cast [Nat.cast_sub h]
    ring
  constructor <;> simp [responsesUsageOf, chatUsageOf, hc]

/-- Witness for the amended C3 theorem at prompt 5, cached 3. -/
theorem usage_sum_recovers_prompt_tokens_witness :
    (responsesUsageOf 5 3 0).cached_input_tokens +
        (responsesUsageOf 5 3 0).input_tokens = (5 : ℚ) ∧
    (chatUsageOf 5 (some 3) 0).cached_input_tokens +
        (chatUsageOf 5 (some 3) 0).input_tokens = (5 : ℚ) :=
  usage_sum_recovers_prompt_tokens 5 3 0 (by norm_num)

/-- C4: both engines compute `input_tokens` as the saturating subtraction
`p ⊖ c` (here `ℕ` subtraction) before applying the cost formula — the cost
added by the `ResponseCompleted` arm and by the final chat chunk is exactly
`Model::cost` of the saturating-subtraction `Usage` record — and whenever
`c > p` the `input_tokens` value is `0`, never negative. -/
theorem input_tokens_saturating_subtraction (p c o : ℕ) :
    ((responsesUsageOf p c o).input_tokens = ((p - c : ℕ) : ℚ) ∧
      (chatUsageOf p (some c) o).input_tokens = ((p - c : ℕ) : ℚ) ∧
      (c > p → (responsesUsageOf p c o).input_tokens = 0) ∧
      (c > p → (chatUsageOf p (some c) o).input_tokens = 0) ∧
      0 ≤ (responsesUsageOf p c o).input_tokens ∧
      0 ≤ (chatUsageOf p (some c) o).input_tokens) ∧
    (∀ (mdl : Model) (tools : ToolSet) (pij : String → Option Json)
        (st : RTurnState) (prev : Option String),
      (processREvent mdl tools pij st
          (.responseCompleted prev (some ⟨p, c, o⟩))).toOption.map
          (fun st' => st'.session.cost) =
        some (st.session.cost + mdl.cost (responsesUsageOf p c o))) ∧
    (∀ (mdl : Model) (tools : ToolSet) (pij : String → Option Json)
        (st : CTurnState),
      (processCChunk mdl tools pij st ⟨Option.none, some ⟨p, o, some c⟩⟩).toOption.map
          (fun st' => st'.session.cost) =
        some (st.session.cost + mdl.cost (chatUsageOf p (some c) o))) := by
  refine ⟨⟨?_, ?_, ?_, ?_, ?_, ?_⟩, ?_, ?_⟩
  · simp [responsesUsageOf]
  · simp [chatUsageOf]
  · intro h
    simp [responsesUsageOf, Nat.sub_eq_zero_of_le (le_of_lt h)]
  · intro h
    simp [chatUsageOf, Nat.sub_eq_zero_of_le (le_of_lt h)]
  · simp [responsesUsageOf]
  · simp [chatUsageOf]
  · intro mdl tools pij st prev
    cases prev <;> simp [processREvent, Except.toOption]
  · intro mdl tools pij st
    simp [processCChunk, Except.toOption]

/-- Witness for C4 at a misreported usage (prompt 1, cached 2). -/
theorem input_tokens_saturating_subtraction_witness :
    (responsesUsageOf 1 2 3).input_tokens = 0 ∧
    (chatUsageOf 1 (some 2) 3).input_tokens = 0 :=
  ⟨(input_tokens_saturating_subtraction 1 2 3).1.2.2.1 (by norm_num),
   (input_tokens_saturating_subtraction 1 2 3).1.2.2.2.1 (by norm_num)⟩

/-! Reduction helpers for the `Except` monad, used throughout the proofs. -/

/-- Embeds `bind` on a successful `Except` computation applies the continuation. -/
theorem except_bind_ok {ε α β : Type} (a : α) (f : α → Except ε β) :
    (Except.ok a : Except ε α) >>= f = f a :=
  rfl

/-- Embeds `bind` on a failed `Except` computation propagates the failure. -/
theorem except_bind_err {ε α β : Type} (e : ε) (f : α → Except ε β) :
    (Except.error e : Except ε α) >>= f = Except.error e :=
  rfl

/-- C2: for every turn of either engine whose event stream completes without
a transport error, the outer loop terminates after the turn if and only if
either no tool executions were spawned during the turn, or, after all spawned
executions are joined, at least one tool call of the assistant message still
has an absent result; otherwise it re-enters the loop. -/
theorem turn_halts_iff_no_spawn_or_absent_result :
    (∀ (mdl : Model) (tools : ToolSet) (pij : String → Option Json)
        (st : RTurnState) (items : List (Except String REvent))
        (st' : RTurnState) (theEnd : TurnEnd),
      runRTurn mdl tools pij st items = .ok (st', theEnd) →
      theEnd ≠ .errored →
      (theEnd = .halted ↔
        st'.tool_executions = [] ∨
          hasAbsentToolResult st'.assistant_message = true)) ∧
    (∀ (mdl : Model) (tools : ToolSet) (pij : String → Option Json)
        (st : CTurnState) (items : List (Except String ChatChunk))
        (st' : CTurnState) (theEnd : TurnEnd),
      runCTurn mdl tools pij st items = .ok (st', theEnd) →
      theEnd ≠ .errored →
      (theEnd = .halted ↔
        st'.tool_executions = [] ∨
          hasAbsentToolResult st'.assistant_message = true)) := by
  constructor
  · intro mdl tools pij st items st' theEnd h hne
    unfold runRTurn at h
    cases hr : runREvents mdl tools pij st items with
    | error e => rw [hr] at h; exact absurd h (by simp)
    | ok p =>
      obtain ⟨st1, errored⟩ := p
      rw [hr] at h
      cases errored with
      | true =>
        simp only [if_true] at h
        obtain ⟨h1, h2⟩ := by simpa using h
        exact absurd h2.symm hne
      | false =>
        simp only [Bool.false_eq_true, if_false] at h
        by_cases he : st1.tool_executions.isEmpty
        · rw [if_pos he] at h
          obtain ⟨h1, h2⟩ := by simpa using h
          subst h1
          constructor
          · intro _
            exact Or.inl (List.isEmpty_iff.mp he)
          · intro _
            exact h2.symm
        · rw [if_neg he] at h
          cases hj : joinToolResults st1.assistant_message st1.tool_executions with
          | error e => rw [hj] at h; exact absurd h (by simp)
          | ok m =>
            rw [hj] at h
            dsimp only at h
            by_cases hb : hasAbsentToolResult m
            · rw [if_pos hb] at h
              obtain ⟨h1, h2⟩ := by simpa using h
              subst h1
              simp [← h2, hb]
            · rw [if_neg hb] at h
              obtain ⟨h1, h2⟩ := by simpa using h
              subst h1
              simp only [← h2]
              constructor
              · intro hcontra
                exact absurd hcontra (by simp)
              · intro hor
                rcases hor with hnil | habs
                · exact absurd (List.isEmpty_iff.mpr hnil) he
                · exact absurd habs (by simpa using hb)
  · intro mdl tools pij st items st' theEnd h hne
    unfold runCTurn at h
    cases hr : runCChunks mdl tools pij st items with
    | error e => rw [hr] at h; exact absurd h (by simp)
    | ok p =>
      obtain ⟨st1, errored⟩ := p
      rw [hr] at h
      cases errored with
      | true =>
        simp only [if_true] at h
        obtain ⟨h1, h2⟩ := by simpa using h
        exact absurd h2.symm hne
      | false =>
        simp only [Bool.false_eq_true, if_false] at h
        cases hs : chatSweep tools st1 with
        | error e => rw [hs] at h; exact absurd h (by simp)
        | ok st2 =>
          rw [hs] at h
          dsimp only at h
          by_cases he : st2.tool_executions.isEmpty
          · rw [if_pos he] at h
            obtain ⟨h1, h2⟩ := by simpa using h
            subst h1
            constructor
            · intro _
              exact Or.inl (List.isEmpty_iff.mp he)
            · intro _
              exact h2.symm
          · rw [if_neg he] at h
            cases hj : joinToolResults st2.assistant_message st2.tool_executions with
            | error e => rw [hj] at h; exact absurd h (by simp)
            | ok m =>
              rw [hj] at h
              dsimp only at h
              by_cases hb : hasAbsentToolResult m
              · rw [if_pos hb] at h
                obtain ⟨h1, h2⟩ := by simpa using h
                subst h1
                simp [← h2, hb]
              · rw [if_neg hb] at h
                obtain ⟨h1, h2⟩ := by simpa using h
                subst h1
                simp only [← h2]
                constructor
                · intro hcontra
                  exact absurd hcontra (by simp)
                · intro hor
                  rcases hor with hnil | habs
                  · exact absurd (List.isEmpty_iff.mpr hnil) he
                  · exact absurd habs (by simpa using hb)

/-- Witness for C2: the empty turn of each engine spawns nothing and halts. -/
theorem turn_halts_iff_no_spawn_or_absent_result_witness :
    (TurnEnd.halted = .halted ↔
      rState0.tool_executions = [] ∨
        hasAbsentToolResult rState0.assistant_message = true) ∧
    (TurnEnd.halted = .halted ↔
      cState0.tool_executions = [] ∨
        hasAbsentToolResult cState0.assistant_message = true) :=
  ⟨turn_halts_iff_no_spawn_or_absent_result.1 .gpt4_1 noTools noRepair
      rState0 [] rState0 .halted rfl (by simp),
   turn_halts_iff_no_spawn_or_absent_result.2 .gpt4_1 noTools noRepair
      cState0 [] cState0 .halted rfl (by simp)⟩

/-- C5: for every session, transcript, tool set, configuration and scripted
backend behaviour, whenever either engine yields a sequence at all, its first
item is `Ok` with the assistant message that has role `assistant` and no
parts — independent of the scripts, i.e. before any backend event is
consumed. -/
theorem first_observation_is_empty_assistant_message
    (messages : List Message) (tools : ToolSet)
    (config : Option GenerateConfig) (pij : String → Option Json)
    (fresh_id : String) (session : Session) :
    (∀ (scripts : List (List (Except String REvent))) (obs : List Obs),
      responses_stream messages tools config pij fresh_id session scripts =
        .ok obs →
      obs.head? =
        some (Obs.ok { id := fresh_id, role := .assistant, parts := [] })) ∧
    (∀ (scripts : List (List (Except String ChatChunk))) (obs : List Obs),
      stream messages tools config pij fresh_id session scripts = .ok obs →
      obs.head? =
        some (Obs.ok { id := fresh_id, role := .assistant, parts := [] })) := by
  constructor
  · intro scripts obs h
    unfold responses_stream at h
    cases hm : messages.mapM responsesEncodeMessage with
    | error e => rw [hm] at h; exact absurd h (by simp)
    | ok thread =>
      rw [hm] at h
      dsimp only at h
      obtain rfl := by simpa using h.symm
      rfl
  · intro scripts obs h
    unfold stream at h
    cases hm : messages.mapM chatEncodeMessage with
    | error e => rw [hm] at h; exact absurd h (by simp)
    | ok thread =>
      rw [hm] at h
      dsimp only at h
      obtain rfl := by simpa using h.symm
      rfl

/-- Witness for C5: both engines on an empty transcript, no tools and no
scripted turns yield exactly the empty assistant message first. -/
theorem first_observation_is_empty_assistant_message_witness :
    [Obs.ok { id := "m1", role := .assistant, parts := [] }].head? =
        some (Obs.ok { id := "m1", role := .assistant, parts := [] }) ∧
    [Obs.ok { id := "m1", role := .assistant, parts := [] }].head? =
        some (Obs.ok { id := "m1", role := .assistant, parts := [] }) :=
  ⟨(first_observation_is_empty_assistant_message [] noTools Option.none
      noRepair ("m1") session0).1 [] _ rfl,
   (first_observation_is_empty_assistant_message [] noTools Option.none
      noRepair ("m1") session0).2 [] _ rfl⟩

/-- C8: in both engines, a tool call whose name is absent from the registry
gets its part's `result` set to the JSON string `"No such tool: <name>"`,
with no executor spawned for it and no observation (in particular no error
observation) surfaced: the rest of the engine state is untouched. For the
Responses engine this happens in the `FunctionCallArgumentsDone` arm; for the
Chat engine in the post-stream sweep over `tool_deltas`. -/
theorem unknown_tool_records_result_and_spawns_nothing :
    (∀ (mdl : Model) (tools : ToolSet) (pij : String → Option Json)
        (st : RTurnState) (output_index : ℕ) (args : String)
        (part_index : ℕ) (tool : ToolCall),
      dmLookup st.deltas (output_index, 0) = some (args, part_index) →
      st.assistant_message.parts.get? part_index = some (Part.tool ⟨tool⟩) →
      ToolSet.get tools tool.name = Option.none →
      processREvent mdl tools pij st
          (.functionCallArgumentsDone output_index) =
        .ok { st with
                assistant_message :=
                  { st.assistant_message with
                    parts := st.assistant_message.parts.set part_index
                      (Part.tool ⟨{ tool with
                        result := some
                          (Json.str ("No such tool: " ++ tool.name)) }⟩) } }) ∧
    (∀ (tools : ToolSet) (st : CTurnState) (idx : ℕ) (args : String)
        (part_index : ℕ) (tool : ToolCall),
      st.assistant_message.parts.get? part_index = some (Part.tool ⟨tool⟩) →
      ToolSet.get tools tool.name = Option.none →
      chatSweepEntry tools st (idx, (args, part_index)) =
        .ok { st with
                assistant_message :=
                  { st.assistant_message with
                    parts := st.assistant_message.parts.set part_index
                      (Part.tool ⟨{ tool with
                        result := some
                          (Json.str ("No such tool: " ++ tool.name)) }⟩) } }) := by
  constructor
  · intro mdl tools pij st output_index args part_index tool h1 h2 h3
    simp only [processREvent, h1, h2, h3, expectSome, asToolCall,
      except_bind_ok]
  · intro tools st idx args part_index tool h2 h3
    simp only [chatSweepEntry, h2, h3, expectSome, asToolCall,
      except_bind_ok]

/-- Witness for C8: a single pending call to the unregistered tool `nope`. -/
theorem unknown_tool_records_result_and_spawns_nothing_witness :
    processREvent .gpt4_1 noTools noRepair rStateNope
        (.functionCallArgumentsDone 0) =
      .ok { rStateNope with
              assistant_message :=
                { rStateNope.assistant_message with
                  parts := rStateNope.assistant_message.parts.set 0
                    (Part.tool ⟨{ nopeToolCall with
                      result := some
                        (Json.str ("No such tool: " ++ nopeToolCall.name)) }⟩) } } ∧
    chatSweepEntry noTools cStateNope (0, ("", 0)) =
      .ok { cStateNope with
              assistant_message :=
                { cStateNope.assistant_message with
                  parts := cStateNope.assistant_message.parts.set 0
                    (Part.tool ⟨{ nopeToolCall with
                      result := some
                        (Json.str ("No such tool: " ++ nopeToolCall.name)) }⟩) } } :=
  ⟨unknown_tool_records_result_and_spawns_nothing.1 .gpt4_1 noTools noRepair
      rStateNope 0 ("") 0 nopeToolCall rfl rfl rfl,
   unknown_tool_records_result_and_spawns_nothing.2 noTools cStateNope 0 ("")
      0 nopeToolCall rfl rfl⟩

/-- C6: the Chat-dialect encoder coalesces two consecutive assistant tool
parts into a single assistant request message carrying both tool calls; each
part with a result contributes one tool-role message with the same call id,
and these follow the assistant message directly — a later text part is
flushed only after the buffered tool-result messages, never between them. -/
theorem chat_encoder_coalesces_consecutive_tool_parts
    (i : String) (t1 t2 : ToolCall) (s : String) :
    chatEncodeMessage ⟨i, .assistant, [.tool ⟨t1⟩, .tool ⟨t2⟩]⟩ =
      .ok ([ChatReqMessage.assistant Option.none
              (some [(toolCallToChat t1).1, (toolCallToChat t2).1])] ++
        ((toolCallToChat t1).2.map ChatReqMessage.tool).toList ++
        ((toolCallToChat t2).2.map ChatReqMessage.tool).toList) ∧
    chatEncodeMessage ⟨i, .assistant, [.tool ⟨t1⟩, .tool ⟨t2⟩, .text ⟨s⟩]⟩ =
      .ok ([ChatReqMessage.assistant Option.none
              (some [(toolCallToChat t1).1, (toolCallToChat t2).1])] ++
        ((toolCallToChat t1).2.map ChatReqMessage.tool).toList ++
        ((toolCallToChat t2).2.map ChatReqMessage.tool).toList ++
        [ChatReqMessage.assistant (some s) Option.none]) := by
  cases h1 : t1.result <;> cases h2 : t2.result <;>
    simp [chatEncodeMessage, chatEncodeStep, chatFlush, toolCallToChat, h1, h2,
      except_bind_ok]

/-- C10: when an assistant text part is immediately followed by a tool part,
the Chat-dialect encoder merges the tool call into the assistant message
already produced for the text: the output holds one assistant message with
both the text content and the tool-calls list, not a separate tool-call-only
assistant message. -/
theorem chat_encoder_merges_tool_call_into_text_message
    (i s : String) (t : ToolCall) :
    chatEncodeMessage ⟨i, .assistant, [.text ⟨s⟩, .tool ⟨t⟩]⟩ =
      .ok ([ChatReqMessage.assistant (some s) (some [(toolCallToChat t).1])] ++
        ((toolCallToChat t).2.map ChatReqMessage.tool).toList) := by
  cases h : t.result <;>
    simp [chatEncodeMessage, chatEncodeStep, chatFlush, toolCallToChat, h,
      except_bind_ok]

/-- The Responses-dialect encoder lowers a run of assistant tool parts to the
concatenation of each part's items, starting from any accumulator. -/
theorem responsesEncode_toolruns_aux (ts : List ToolCall) :
    ∀ acc : List InputListItem,
      (ts.map fun t => Part.tool ⟨t⟩).foldlM
          (responsesEncodeStep .assistant) acc =
        .ok (acc ++ (ts.map toolCallToItems).flatten) := by
  induction ts with
  | nil => intro acc; simp [List.foldlM, pure, Except.pure]
  | cons t rest ih =>
      intro acc
      simp [List.foldlM, responsesEncodeStep, except_bind_ok, ih,
        List.append_assoc]

/-- C7: the Responses-dialect encoder turns every assistant tool part into
exactly one top-level function-call item carrying the part's call id, name
and string-encoded arguments, followed by exactly one function-call-output
item with the same call id iff the part has a result; a message of tool
parts encodes to the flat concatenation of these pairs, with no coalescing. -/
theorem responses_encoder_emits_flat_tool_item_pairs :
    (∀ (i : String) (ts : List ToolCall),
      responsesEncodeMessage ⟨i, .assistant, ts.map fun t => Part.tool ⟨t⟩⟩ =
        .ok ((ts.map toolCallToItems).flatten)) ∧
    (∀ (t : ToolCall) (r : Json),
      t.result = some r →
      toolCallToItems t =
        [InputListItem.functionCall t.id t.name (Json.toString t.args),
         InputListItem.functionCallOutput t.id (Json.toString r)]) ∧
    (∀ t : ToolCall,
      t.result = Option.none →
      toolCallToItems t =
        [InputListItem.functionCall t.id t.name (Json.toString t.args)]) := by
  refine ⟨?_, ?_, ?_⟩
  · intro i ts
    unfold responsesEncodeMessage
    simpa using responsesEncode_toolruns_aux ts []
  · intro t r h
    simp [toolCallToItems, h]
  · intro t h
    simp [toolCallToItems, h]

/-- Witness for C7: a call with a result and a call without one. -/
theorem responses_encoder_emits_flat_tool_item_pairs_witness :
    toolCallToItems addToolCall =
      [InputListItem.functionCall addToolCall.id addToolCall.name
        (Json.toString addToolCall.args),
       InputListItem.functionCallOutput addToolCall.id
        (Json.toString (Json.num 3))] ∧
    toolCallToItems nopeToolCall =
      [InputListItem.functionCall nopeToolCall.id nopeToolCall.name
        (Json.toString nopeToolCall.args)] :=
  ⟨responses_encoder_emits_flat_tool_item_pairs.2.1 addToolCall _ rfl,
   responses_encoder_emits_flat_tool_item_pairs.2.2 nopeToolCall rfl⟩

/-- C9 counterexample: the claim says extracting `Context<T>` from a call
whose context is absent, or was registered at another type, returns an error.
In the source both conditions hit an `expect`, i.e. a panic: the `TryFrom`
implementation never returns `Err`. At the concrete calls below the outcome
is a panic, not an error return. -/
theorem context_extraction_never_returns_error_counterexample :
    (contextTryFrom ("T") callStateNoContext).isFailed = false ∧
    contextTryFrom ("T") callStateNoContext = .panicked ("context to exist") ∧
    (contextTryFrom ("T") callStateOtherContext).isFailed = false ∧
    contextTryFrom ("T") callStateOtherContext = .panicked ("to be a T") := by
  refine ⟨rfl, rfl, ?_, ?_⟩ <;>
    simp [contextTryFrom, callStateOtherContext, ExtractResult.isFailed]

/-- C9 (amended): for every call whose context does not hold a value
registered as `T` (absent, or registered at a different type), extracting
`Context<T>` fails by panicking — it diverges with an `expect` failure rather
than returning either a `Context<T>` value or an error. -/
theorem context_extraction_panics_when_not_registered_as_T
    (τ : String) (state : CallState)
    (h : ∀ dynValue, state.context = some dynValue → dynValue.ty ≠ τ) :
    ∃ msg, contextTryFrom τ state = .panicked msg := by
  unfold contextTryFrom
  cases hc : state.context with
  | none => exact ⟨_, rfl⟩
  | some dynValue =>
      dsimp only
      rw [if_neg (h dynValue hc)]
      exact ⟨_, rfl⟩

/-- Witness for the amended C9 theorem at a call with no context. -/
theorem context_extraction_panics_when_not_registered_as_T_witness :
    ∃ msg, contextTryFrom ("T") callStateNoContext = .panicked msg :=
  context_extraction_panics_when_not_registered_as_T ("T") callStateNoContext
    (by intro dynValue hc; simp [callStateNoContext] at hc)

end Aiflow
